import Mathlib

/-!
Verification of the Kannada Wiktionary generator's deterministic core
(`app.py`): the morphology classifier `get_template_logic`, the exemplar
matcher `get_few_shot_examples`, the knowledge-store persistence helpers
`load_ground_truth` / `save_to_ground_truth`, and the orchestration of the
"Generate Wikitext" flow.  Words and entry texts are modelled as `List Char`
(one element per Unicode code point, matching Python string indexing); the
persisted JSON file is modelled as an `Option` association list (`none` for a
missing or empty file).  Fallible code paths (Python `IndexError`) are
modelled with `Option` results.
-/

/-- A dictionary word: a sequence of script characters (Python `str`). -/
abbrev Word := List Char

/-- A Wiktionary entry text, also a character sequence. -/
abbrev Entry := List Char

/-- A (word, entry) pair as stored in the ground-truth mapping. -/
abbrev StorePair := Word × Entry

/-- Convert a character-list word back to a Lean `String` (used when the
source interpolates the word into an instruction f-string). -/
def asString (w : List Char) : String := String.mk w

/-- Python `s.endswith(suf)` on code-point sequences. -/
def endsWithL (w suf : List Char) : Bool := decide (suf <:+ w)

/-- Python `s.removesuffix(suf)`: drops `suf` from the end when it is a
suffix, otherwise returns the word unchanged. -/
def removeSuffixL (w suf : List Char) : List Char :=
  if suf <:+ w then w.take (w.length - suf.length) else w

/-- The reflexive-compound suffix "ಕೊಳ್ಳು" checked by the classifier. -/
def kolluChars : List Char := "ಕೊಳ್ಳು".toList

/-- The causative suffix "ಿಸು" checked by the classifier. -/
def isuChars : List Char := "ಿಸು".toList

/-- The single vowel sign "ು" (`removesuffix("ು")` argument in the source). -/
def uChars : List Char := "ು".toList

/-- Membership of a character in the vowel-sign list `["ಿ", "ೆ", "ೈ"]`. -/
def eiChar (c : Char) : Bool := c == 'ಿ' || c == 'ೆ' || c == 'ೈ'

/-- Python `last_char in ["ಿ", "ೆ", "ೈ"]` where `last_char` is
`word[-1] if word else ""`: the empty-string default matches none of the
single-character entries, modelled by the `none` case. -/
def inEISet (lc : Option Char) : Bool :=
  match lc with
  | none => false
  | some c => eiChar c

/-- The Noun branch of `get_template_logic` (app.py lines 53-60): builds the
declension instruction from the word's last character. -/
def noun_instruction (last_char : Option Char) (word : Word) : String :=
  if last_char = some 'ು' then
    "Noun: \x7b\x7bkn-decl-u|" ++ asString word ++ "|"
      ++ asString (removeSuffixL word uChars) ++ "\x7d\x7d"
  else if inEISet last_char then
    "Noun: \x7b\x7bkn-decl-e-i-ai|" ++ asString word ++ "|" ++ asString word ++ "\x7d\x7d"
  else
    "Noun: \x7b\x7bkn-decl-a|" ++ asString word ++ "\x7d\x7d"

/-- The Verb branch of `get_template_logic` (app.py lines 62-72): suffix
checks in source order, falling back to the `IRREGULAR_CHECK` sentinel. -/
def verb_instruction (last_char : Option Char) (word : Word) : String :=
  if endsWithL word kolluChars then
    "Verb: \x7b\x7bkn-conj-koḷḷu|" ++ asString (removeSuffixL word kolluChars) ++ "\x7d\x7d"
  else if endsWithL word isuChars then
    "Verb: \x7b\x7bkn-conj-isu|" ++ asString word ++ "|"
      ++ asString (removeSuffixL word uChars) ++ "\x7d\x7d"
  else if inEISet last_char then
    "Verb: \x7b\x7bkn-conj-e-i-other|" ++ asString word ++ "|" ++ asString word ++ "ಯ|"
      ++ asString word ++ "ದ|" ++ asString word ++ "\x7d\x7d"
  else
    "Verb: IRREGULAR_CHECK"

/-- Python `" AND ".join(instructions)` on a non-empty list (the source only
joins after checking the list is non-empty). -/
def join_and : List String → String
  | [] => ""
  | [s] => s
  | s :: rest => s ++ " AND " ++ join_and rest

/-- `get_template_logic(word, pos_categories)` from app.py lines 44-75:
computes `last_char = word[-1] if word else ""` (modelled by `getLast?`),
collects one instruction per Noun/Verb POS in request order (other POS
contribute nothing), and joins them with " AND ", defaulting to the
no-templates message when no instruction was produced. -/
def get_template_logic (word : Word) (pos_categories : List String) : String :=
  let last_char := word.getLast?
  let instructions := pos_categories.filterMap (fun pos =>
    if pos = "Noun" then some (noun_instruction last_char word)
    else if pos = "Verb" then some (verb_instruction last_char word)
    else none)
  match instructions with
  | [] => "No specific morphology templates required."
  | _ => join_and instructions

/-- The POS section marker `f"==={pos}==="` searched for in entry texts. -/
def posMarker (pos : String) : List Char := ("===" ++ pos ++ "===").toList

/-- Python `pat in text` substring containment on code-point sequences. -/
def containsSub (text pat : List Char) : Bool := decide (pat <:+: text)

/-- The `structural_target` computation of `get_few_shot_examples`
(app.py lines 86-106).  The Verb branch indexes `target_word[-1]` without an
emptiness guard, so on the empty word it raises `IndexError`, modelled by
`none`; every other path returns `some` label (the Noun branch guards with
`target_word[-1] if target_word else ""`, and non-Noun/Verb primaries leave
the label as the empty string). -/
def structural_target (primary_pos : Option String) (target_word : Word) : Option String :=
  if primary_pos = some "Verb" then
    if endsWithL target_word isuChars then some "kn-conj-isu"
    else if endsWithL target_word kolluChars then some "kn-conj-koḷḷu"
    else
      match target_word.getLast? with
      | none => none
      | some c => if eiChar c then some "kn-conj-e-i-other" else some "kn-conj-u"
  else if primary_pos = some "Noun" then
    if target_word.getLast? = some 'ು' then some "kn-decl-u"
    else if inEISet target_word.getLast? then some "kn-decl-e-i-ai"
    else some "kn-decl-a"
  else some ""

/-- One iteration structure shared by both selection passes of
`get_few_shot_examples`: for each store item in order, conditionally append
it, then break as soon as `len(matched_entries) == count`. -/
def selectLoop (p : StorePair → List StorePair → Bool) (count : Nat) :
    List StorePair → List StorePair → List StorePair
  | [], acc => acc
  | e :: rest, acc =>
    let acc2 := if p e acc then acc ++ [e] else acc
    if acc2.length = count then acc2 else selectLoop p count rest acc2

/-- Pass-1 condition (app.py line 111): the entry text contains the primary
POS section marker and the structural-target label. -/
def tier1Matches (primary_pos st : String) (e : StorePair) : Bool :=
  containsSub e.2 (posMarker primary_pos) && containsSub e.2 st.toList

/-- Pass-2 condition (app.py line 119): the entry text contains the section
marker of at least one requested POS. -/
def tier2Matches (pos_categories : List String) (e : StorePair) : Bool :=
  pos_categories.any (fun pos => containsSub e.2 (posMarker pos))

/-- Pass 1 of `get_few_shot_examples` (app.py lines 109-113): runs only when
a primary POS exists (`if primary_pos:`), starting from an empty selection. -/
def pass1_matches (current_ground_truth : List StorePair)
    (primary_pos : Option String) (st : String) (count : Nat) : List StorePair :=
  match primary_pos with
  | some p => selectLoop (fun e _ => tier1Matches p st e) count current_ground_truth []
  | none => []

/-- Pass 2 of `get_few_shot_examples` (app.py lines 116-121): runs only when
Pass 1 selected fewer than `count`, skipping pairs already selected. -/
def pass2_matches (current_ground_truth : List StorePair)
    (pos_categories : List String) (count : Nat) (m1 : List StorePair) : List StorePair :=
  if m1.length < count then
    selectLoop (fun e acc => tier2Matches pos_categories e && !(decide (e ∈ acc)))
      count current_ground_truth m1
  else m1

/-- `get_few_shot_examples(current_ground_truth, pos_categories, target_word,
count)` from app.py lines 78-127, returning the selected `matched_entries`
(the source then formats them into a prompt block, which no claim touches).
`none` models the `IndexError` raised while computing `structural_target`
for an empty target word with primary POS Verb. -/
def get_few_shot_examples (current_ground_truth : List StorePair)
    (pos_categories : List String) (target_word : Word) (count : Nat) :
    Option (List StorePair) :=
  match structural_target pos_categories.head? target_word with
  | none => none
  | some st =>
    some (pass2_matches current_ground_truth pos_categories count
      (pass1_matches current_ground_truth pos_categories.head? st count))

/-- First-match lookup in the stored mapping: Python `word in data` /
`data[word]` on a dict, modelled on the association list. -/
def store_get : List StorePair → Word → Option Entry
  | [], _ => none
  | (k, v) :: rest, w => if k = w then some v else store_get rest w

/-- Python `data[word] = entry` on a dict: replace the binding when the key
is present (keeping its position), otherwise append the new binding. -/
def dict_set : List StorePair → Word → Entry → List StorePair
  | [], w, e => [(w, e)]
  | (k, v) :: rest, w, e =>
    if k = w then (k, e) :: rest else (k, v) :: dict_set rest w e

/-- `load_ground_truth()` (app.py lines 14-19): a missing or zero-size file
(`none`) loads as the empty mapping; otherwise the persisted mapping is
returned as parsed. -/
def load_ground_truth : Option (List StorePair) → List StorePair
  | none => []
  | some data => data

/-- `save_to_ground_truth(word, entry)` (app.py lines 22-27): re-load the
full persisted mapping, set the single key, and rewrite the whole file. -/
def save_to_ground_truth (file_state : Option (List StorePair))
    (word : Word) (entry : Entry) : Option (List StorePair) :=
  some (dict_set (load_ground_truth file_state) word entry)

/-- The deterministic guess substituted for the sentinel in the fast-model
configuration (app.py lines 230-231): `stem = word[:-1]`. -/
def irregular_fast_guess (word : Word) : String :=
  "\x7b\x7bkn-conj-u|" ++ asString word.dropLast ++ "|" ++ asString word.dropLast
    ++ "ಿ|" ++ asString word.dropLast ++ "ಿದ\x7d\x7d"

/-- The ambiguity instruction used for the deep-model configuration
(app.py line 233). -/
def irregular_deep_instruction : String :=
  "Use \x7b\x7bkn-conj-u-irreg\x7d\x7d for geminates or \x7b\x7bkn-conj-u\x7d\x7d for regular forms."

/-- The sentinel-resolution step of the Generate Wikitext handler
(app.py lines 228-233): the comparison is against the bare string
"IRREGULAR_CHECK", exactly as written in the source. -/
def resolve_template_instruction (fast : Bool) (word : Word)
    (template_instruction : String) : String :=
  if template_instruction = "IRREGULAR_CHECK" then
    if fast then irregular_fast_guess word else irregular_deep_instruction
  else template_instruction

/-- The generation request assembled by the Generate Wikitext handler: the
(resolved) morphology template instruction and the selected exemplars
(`none` when exemplar selection raised). -/
structure GenRequest where
  template_instruction : String
  examples : Option (List StorePair)
  deriving DecidableEq

/-- Outcome of processing a word in the main UI flow: either the stored
entry is returned directly, or a generation request is assembled. -/
inductive ProcessResult where
  | fromStore (entry : Entry)
  | generate (req : GenRequest)
  deriving DecidableEq

/-- The main UI flow for a submitted word (app.py lines 210-236): if the
word is in the loaded ground truth, display the stored entry and do nothing
else; otherwise classify, resolve the sentinel, select exemplars
(3 for the fast model, 4 for the deep one) and assemble the request. -/
def process_word (fast : Bool) (store : List StorePair) (word : Word)
    (pos_categories : List String) : ProcessResult :=
  match store_get store word with
  | some entry => .fromStore entry
  | none =>
    let ti := get_template_logic word pos_categories
    let ti := resolve_template_instruction fast word ti
    let ex := get_few_shot_examples store pos_categories word (if fast then 3 else 4)
    .generate ⟨ti, ex⟩

/-! ## General lemmas about the embedded primitives -/

theorem endsWithL_eq_true {w s : List Char} : endsWithL w s = true ↔ s <:+ w := by
  simp [endsWithL]

theorem endsWithL_eq_false {w s : List Char} : endsWithL w s = false ↔ ¬ s <:+ w := by
  simp [endsWithL]

theorem inEISet_eq_true {lc : Option Char} :
    inEISet lc = true ↔ (lc = some 'ಿ' ∨ lc = some 'ೆ' ∨ lc = some 'ೈ') := by
  cases lc with
  | none => simp [inEISet]
  | some c => simp [inEISet, eiChar, or_assoc]

theorem suffix_of_suffix_length_le {l s₁ s₂ : List Char}
    (h1 : s₁ <:+ l) (h2 : s₂ <:+ l) (h : s₁.length ≤ s₂.length) : s₁ <:+ s₂ := by
  rw [← List.reverse_prefix] at h1 h2 ⊢
  exact List.prefix_of_prefix_length_le h1 h2 (by simpa using h)

theorem kollu_suffix_not_isu {w : List Char} (h : kolluChars <:+ w) :
    ¬ isuChars <:+ w := by
  intro h2
  have h3 : isuChars <:+ kolluChars := suffix_of_suffix_length_le h2 h (by decide)
  exact absurd h3 (by decide)

theorem last_suffix_of_getLast? {w : List Char} {c : Char} (h : w.getLast? = some c) :
    [c] <:+ w := by
  induction w using List.reverseRecOn with
  | nil => simp at h
  | append_singleton l a _ =>
    rw [List.getLast?_concat] at h
    obtain rfl : a = c := by injection h
    exact ⟨l, rfl⟩

theorem getLast?_of_suffix {w s : List Char} (h : s <:+ w) (hs : s ≠ []) :
    w.getLast? = s.getLast? := by
  obtain ⟨t, rfl⟩ := h
  exact List.getLast?_append_of_ne_nil t hs

theorem removeSuffix_append {t s : List Char} : removeSuffixL (t ++ s) s = t := by
  rw [removeSuffixL, if_pos ⟨t, rfl⟩]
  have hl : (t ++ s).length - s.length = t.length := by simp
  rw [hl, List.take_left]

theorem removeSuffix_u_eq_dropLast {w : List Char} (h : uChars <:+ w) :
    removeSuffixL w uChars = w.dropLast := by
  have hu : uChars.length = 1 := by decide
  rw [removeSuffixL, if_pos h, hu, List.dropLast_eq_take]

theorem get_template_logic_noun (w : Word) :
    get_template_logic w ["Noun"] = noun_instruction w.getLast? w := rfl

theorem get_template_logic_verb (w : Word) :
    get_template_logic w ["Verb"] = verb_instruction w.getLast? w := rfl

/-! ## Claim theorems -/

/-- C1: for every non-empty word with requested POS Verb, classification
applies the rules in priority order with first match winning: the
reflexive-compound suffix "ಕೊಳ್ಳು" yields conjugation-class KOḶḶU with the
single parameter word-minus-that-suffix; otherwise the causative suffix
"ಿಸು" yields conjugation-class ISU with parameters (full word, word minus
its final character); otherwise a final "ಿ", "ೆ" or "ೈ" yields
conjugation-class E-I-OTHER with parameters (word, word + "ಯ", word + "ದ",
word); otherwise the IrregularCheck sentinel is returned and no concrete
template. -/
theorem c1_verb_priority_rules (w : Word) (hw : w ≠ []) :
    (∀ pfx, pfx ++ kolluChars = w →
      get_template_logic w ["Verb"] =
        "Verb: \x7b\x7bkn-conj-koḷḷu|" ++ asString pfx ++ "\x7d\x7d") ∧
    (¬ kolluChars <:+ w → isuChars <:+ w →
      get_template_logic w ["Verb"] =
        "Verb: \x7b\x7bkn-conj-isu|" ++ asString w ++ "|"
          ++ asString w.dropLast ++ "\x7d\x7d") ∧
    (¬ kolluChars <:+ w → ¬ isuChars <:+ w →
      (w.getLast? = some 'ಿ' ∨ w.getLast? = some 'ೆ' ∨ w.getLast? = some 'ೈ') →
      get_template_logic w ["Verb"] =
        "Verb: \x7b\x7bkn-conj-e-i-other|" ++ asString w ++ "|" ++ asString w ++ "ಯ|"
          ++ asString w ++ "ದ|" ++ asString w ++ "\x7d\x7d") ∧
    (¬ kolluChars <:+ w → ¬ isuChars <:+ w →
      ¬ (w.getLast? = some 'ಿ' ∨ w.getLast? = some 'ೆ' ∨ w.getLast? = some 'ೈ') →
      get_template_logic w ["Verb"] = "Verb: IRREGULAR_CHECK") := by
  refine ⟨?_, ?_, ?_, ?_⟩
  · rintro pfx rfl
    rw [get_template_logic_verb, verb_instruction,
      if_pos (endsWithL_eq_true.mpr ⟨pfx, rfl⟩), removeSuffix_append]
  · intro h1 h2
    rw [get_template_logic_verb, verb_instruction,
      if_neg (by rw [endsWithL_eq_false.mpr h1]; exact Bool.false_ne_true),
      if_pos (endsWithL_eq_true.mpr h2),
      removeSuffix_u_eq_dropLast (List.IsSuffix.trans (by decide) h2)]
  · intro h1 h2 h3
    rw [get_template_logic_verb, verb_instruction,
      if_neg (by rw [endsWithL_eq_false.mpr h1]; exact Bool.false_ne_true),
      if_neg (by rw [endsWithL_eq_false.mpr h2]; exact Bool.false_ne_true),
      if_pos (inEISet_eq_true.mpr h3)]
  · intro h1 h2 h3
    rw [get_template_logic_verb, verb_instruction,
      if_neg (by rw [endsWithL_eq_false.mpr h1]; exact Bool.false_ne_true),
      if_neg (by rw [endsWithL_eq_false.mpr h2]; exact Bool.false_ne_true),
      if_neg (fun hc => h3 (inEISet_eq_true.mp hc))]

/-- Witness for C1: the causative verb "ಕಳುಹಿಸು" (which does not carry the
reflexive suffix) is classified as conjugation-class ISU with parameters
(full word, word minus its final character). -/
theorem c1_verb_priority_rules_witness :
    get_template_logic "ಕಳುಹಿಸು".toList ["Verb"] =
      "Verb: \x7b\x7bkn-conj-isu|" ++ asString "ಕಳುಹಿಸು".toList ++ "|"
        ++ asString "ಕಳುಹಿಸು".toList.dropLast ++ "\x7d\x7d" :=
  (c1_verb_priority_rules "ಕಳುಹಿಸು".toList (by decide)).2.1 (by decide) (by decide)

/-- C2: for every non-empty word with requested POS Noun, classification
returns declension-class U with parameters (word, word minus its final
character) when the word ends in "ು"; declension-class E-I-AI with both
parameters the full word when it ends in "ಿ", "ೆ" or "ೈ"; and otherwise
declension-class A with the single parameter equal to the full word. -/
theorem c2_noun_rules (w : Word) (hw : w ≠ []) :
    (w.getLast? = some 'ು' →
      get_template_logic w ["Noun"] =
        "Noun: \x7b\x7bkn-decl-u|" ++ asString w ++ "|"
          ++ asString w.dropLast ++ "\x7d\x7d") ∧
    ((w.getLast? = some 'ಿ' ∨ w.getLast? = some 'ೆ' ∨ w.getLast? = some 'ೈ') →
      get_template_logic w ["Noun"] =
        "Noun: \x7b\x7bkn-decl-e-i-ai|" ++ asString w ++ "|" ++ asString w ++ "\x7d\x7d") ∧
    (w.getLast? ≠ some 'ು' →
      ¬ (w.getLast? = some 'ಿ' ∨ w.getLast? = some 'ೆ' ∨ w.getLast? = some 'ೈ') →
      get_template_logic w ["Noun"] =
        "Noun: \x7b\x7bkn-decl-a|" ++ asString w ++ "\x7d\x7d") := by
  refine ⟨?_, ?_, ?_⟩
  · intro h
    have hsuf : uChars <:+ w := by
      have := last_suffix_of_getLast? h
      simpa [uChars] using this
    rw [get_template_logic_noun, noun_instruction, if_pos h,
      removeSuffix_u_eq_dropLast hsuf]
  · intro h
    have hne : w.getLast? ≠ some 'ು' := by
      rcases h with h | h | h <;> rw [h] <;> decide
    rw [get_template_logic_noun, noun_instruction, if_neg hne,
      if_pos (inEISet_eq_true.mpr h)]
  · intro h1 h2
    rw [get_template_logic_noun, noun_instruction, if_neg h1,
      if_neg (fun hc => h2 (inEISet_eq_true.mp hc))]

/-- Witness for C2: "ಮಂಜು" is declension-class U with stem "ಮಂಜ". -/
theorem c2_noun_rules_witness :
    get_template_logic "ಮಂಜು".toList ["Noun"] =
      "Noun: \x7b\x7bkn-decl-u|" ++ asString "ಮಂಜು".toList ++ "|"
        ++ asString "ಮಂಜು".toList.dropLast ++ "\x7d\x7d" :=
  (c2_noun_rules "ಮಂಜು".toList (by decide)).1 (by decide)

theorem structural_target_verb_of_ne_nil {w : Word} (hw : w ≠ []) :
    structural_target (some "Verb") w =
      some (if kolluChars <:+ w then "kn-conj-koḷḷu"
        else if isuChars <:+ w then "kn-conj-isu"
        else if inEISet w.getLast? then "kn-conj-e-i-other"
        else "kn-conj-u") := by
  obtain ⟨c, hc⟩ := Option.isSome_iff_exists.mp (List.getLast?_isSome.mpr hw)
  by_cases hk : kolluChars <:+ w
  · have hi : ¬ isuChars <:+ w := kollu_suffix_not_isu hk
    rw [structural_target, if_pos rfl,
      if_neg (by rw [endsWithL_eq_false.mpr hi]; exact Bool.false_ne_true),
      if_pos (endsWithL_eq_true.mpr hk), if_pos hk]
  · by_cases hi : isuChars <:+ w
    · rw [structural_target, if_pos rfl, if_pos (endsWithL_eq_true.mpr hi),
        if_neg hk, if_pos hi]
    · rw [structural_target, if_pos rfl,
        if_neg (by rw [endsWithL_eq_false.mpr hi]; exact Bool.false_ne_true),
        if_neg (by rw [endsWithL_eq_false.mpr hk]; exact Bool.false_ne_true),
        hc, if_neg hk, if_neg hi]
      simp only [inEISet]
      split <;> rfl

theorem structural_target_isSome (pp : Option String) (w : Word) (hw : w ≠ []) :
    (structural_target pp w).isSome := by
  by_cases hv : pp = some "Verb"
  · rw [hv, structural_target_verb_of_ne_nil hw]
    rfl
  · rw [structural_target, if_neg hv]
    split
    · split
      · rfl
      · split <;> rfl
    · rfl

/-- C8: for every non-empty target word with primary POS Verb or Noun, the
`structural_target` label computed inside `get_few_shot_examples` (which
tests "ಿಸು" before "ಕೊಳ್ಳು") picks exactly the branch that
`get_template_logic` picks (which tests "ಕೊಳ್ಳು" before "ಿಸು", then the
final vowel signs, with the IrregularCheck otherwise-case mapped to the
regular "kn-conj-u" label): the right-hand cascades below are in the
classifier's rule order. -/
theorem c8_structural_target_matches_classifier (w : Word) (hw : w ≠ []) :
    structural_target (some "Verb") w =
      some (if kolluChars <:+ w then "kn-conj-koḷḷu"
        else if isuChars <:+ w then "kn-conj-isu"
        else if inEISet w.getLast? then "kn-conj-e-i-other"
        else "kn-conj-u") ∧
    structural_target (some "Noun") w =
      some (if w.getLast? = some 'ು' then "kn-decl-u"
        else if inEISet w.getLast? then "kn-decl-e-i-ai"
        else "kn-decl-a") := by
  refine ⟨structural_target_verb_of_ne_nil hw, ?_⟩
  rw [structural_target, if_neg (by decide), if_pos rfl]
  split
  · rfl
  · split <;> rfl

/-- Witness for C8: for "ಮಾಡಿಸು" (causative) the matcher's structural label
is the "kn-conj-isu" branch, matching the classifier's choice. -/
theorem c8_structural_target_matches_classifier_witness :
    structural_target (some "Verb") "ಮಾಡಿಸು".toList = some "kn-conj-isu" :=
  ((c8_structural_target_matches_classifier "ಮಾಡಿಸು".toList (by decide)).1).trans
    (by decide)

/-- C10: the matcher's structural-target derivation indexes the target
word's last character without an emptiness guard in the Verb branch: on any
non-empty word it is in bounds and a label is produced, but on the empty
word with primary POS Verb the computation fails (modelled as `none`,
Python's `IndexError`), unlike the Noun branch of the matcher and the
classifier, which default the last character to the empty string. -/
theorem c10_unguarded_verb_indexing (w : Word) (hw : w ≠ []) :
    (∃ s, structural_target (some "Verb") w = some s) ∧
    structural_target (some "Verb") [] = none ∧
    structural_target (some "Noun") [] = some "kn-decl-a" ∧
    get_template_logic [] ["Verb"] = "Verb: IRREGULAR_CHECK" := by
  refine ⟨?_, by decide, by decide, by decide⟩
  exact Option.isSome_iff_exists.mp (structural_target_isSome (some "Verb") w hw)

/-- Witness for C10: instantiated at the non-empty word "ಮಾಡು". -/
theorem c10_unguarded_verb_indexing_witness :
    (∃ s, structural_target (some "Verb") "ಮಾಡು".toList = some s) ∧
    structural_target (some "Verb") [] = none ∧
    structural_target (some "Noun") [] = some "kn-decl-a" ∧
    get_template_logic [] ["Verb"] = "Verb: IRREGULAR_CHECK" :=
  c10_unguarded_verb_indexing "ಮಾಡು".toList (by decide)

theorem selectLoop_length_le {p : StorePair → List StorePair → Bool} {count : Nat} :
    ∀ (l acc : List StorePair), acc.length < count →
      (selectLoop p count l acc).length ≤ count := by
  intro l
  induction l with
  | nil => intro acc h; simpa [selectLoop] using Nat.le_of_lt h
  | cons e rest ih =>
    intro acc h
    simp only [selectLoop]
    set acc2 := if p e acc then acc ++ [e] else acc with hacc2
    have hlen : acc2.length ≤ acc.length + 1 := by
      rw [hacc2]; split <;> simp
    by_cases hbreak : acc2.length = count
    · rw [if_pos hbreak]
      exact hbreak.le
    · rw [if_neg hbreak]
      exact ih acc2 (lt_of_le_of_ne (le_trans hlen (Nat.succ_le_of_lt h)) hbreak)

theorem selectLoop_nodup_of_disjoint {p : StorePair → List StorePair → Bool}
    {count : Nat} :
    ∀ (l acc : List StorePair), l.Nodup → acc.Nodup → (∀ e ∈ l, e ∉ acc) →
      (selectLoop p count l acc).Nodup := by
  intro l
  induction l with
  | nil => intro acc _ hacc _; simpa [selectLoop] using hacc
  | cons e rest ih =>
    intro acc hl hacc hdisj
    obtain ⟨hnotmem, hrest⟩ := List.nodup_cons.mp hl
    simp only [selectLoop]
    set acc2 := if p e acc then acc ++ [e] else acc with hacc2
    have hacc2nodup : acc2.Nodup := by
      rw [hacc2]
      split
      · exact List.nodup_append.mpr
          ⟨hacc, List.nodup_singleton e,
            fun a ha hb =>
              hdisj e (List.mem_cons_self e rest) (List.mem_singleton.mp hb ▸ ha)⟩
      · exact hacc
    have hdisj2 : ∀ x ∈ rest, x ∉ acc2 := by
      intro x hx
      rw [hacc2]
      split
      · intro hmem
        rcases List.mem_append.mp hmem with hmem | hmem
        · exact hdisj x (List.mem_cons_of_mem e hx) hmem
        · exact hnotmem (List.mem_singleton.mp hmem ▸ hx)
      · exact hdisj x (List.mem_cons_of_mem e hx)
    by_cases hbreak : acc2.length = count
    · rw [if_pos hbreak]; exact hacc2nodup
    · rw [if_neg hbreak]; exact ih acc2 hrest hacc2nodup hdisj2

theorem selectLoop_nodup_of_guard {p : StorePair → List StorePair → Bool}
    {count : Nat} (hp : ∀ e acc, p e acc = true → e ∉ acc) :
    ∀ (l acc : List StorePair), acc.Nodup → (selectLoop p count l acc).Nodup := by
  intro l
  induction l with
  | nil => intro acc hacc; simpa [selectLoop] using hacc
  | cons e rest ih =>
    intro acc hacc
    simp only [selectLoop]
    set acc2 := if p e acc then acc ++ [e] else acc with hacc2
    have hacc2nodup : acc2.Nodup := by
      rw [hacc2]
      split
      · next hpe =>
        exact List.nodup_append.mpr
          ⟨hacc, List.nodup_singleton e,
            fun a ha hb => hp e acc hpe (List.mem_singleton.mp hb ▸ ha)⟩
      · exact hacc
    by_cases hbreak : acc2.length = count
    · rw [if_pos hbreak]; exact hacc2nodup
    · rw [if_neg hbreak]; exact ih acc2 hacc2nodup

theorem selectLoop_mem {p : StorePair → List StorePair → Bool} {count : Nat} :
    ∀ (l acc : List StorePair) (e : StorePair), e ∈ selectLoop p count l acc →
      e ∈ acc ∨ ∃ a, p e a = true := by
  intro l
  induction l with
  | nil => intro acc e he; exact Or.inl (by simpa [selectLoop] using he)
  | cons hd rest ih =>
    intro acc e he
    simp only [selectLoop] at he
    set acc2 := if p hd acc then acc ++ [hd] else acc with hacc2
    have hstep : e ∈ acc2 → e ∈ acc ∨ ∃ a, p e a = true := by
      intro hmem
      rw [hacc2] at hmem
      by_cases hpe : p hd acc = true
      · rw [if_pos hpe] at hmem
        rcases List.mem_append.mp hmem with hmem | hmem
        · exact Or.inl hmem
        · obtain rfl : e = hd := List.mem_singleton.mp hmem
          exact Or.inr ⟨acc, hpe⟩
      · rw [if_neg hpe] at hmem
        exact Or.inl hmem
    by_cases hbreak : acc2.length = count
    · rw [if_pos hbreak] at he
      exact hstep he
    · rw [if_neg hbreak] at he
      rcases ih acc2 e he with hmem | hfound
      · exact hstep hmem
      · exact Or.inr hfound

/-- C5 counterexample: a non-empty store whose single entry text contains no
requested POS section marker yields an *empty* selection — there is no
Tier-3 padding pass in the code, so "the result is non-empty whenever the
store is non-empty" is false. -/
theorem c5_counterexample :
    get_few_shot_examples [("ab".toList, "xyz".toList)] ["Noun"] "ಕ".toList 4
      = some [] ∧
    [("ab".toList, "xyz".toList)] ≠ ([] : List StorePair) := by
  decide

/-- C5 (amended): exemplar selection has no Tier-3 padding pass — every
selected exemplar satisfies the Pass-1 condition (primary POS marker and
structural-target label in its text) or the Pass-2 condition (some requested
POS marker in its text); an entry matching neither is never selected, so
the result can be empty even when the store is non-empty. -/
theorem c5_amended_no_tier3_padding (store : List StorePair)
    (pos_categories : List String) (target_word : Word) (count : Nat)
    (p st : String) (res : List StorePair)
    (hp : pos_categories.head? = some p)
    (hst : structural_target (some p) target_word = some st)
    (hres : get_few_shot_examples store pos_categories target_word count = some res) :
    ∀ e ∈ res, tier1Matches p st e = true ∨ tier2Matches pos_categories e = true := by
  intro e he
  simp only [get_few_shot_examples, hp, hst, Option.some.injEq] at hres
  subst hres
  have hm1case : e ∈ pass1_matches store (some p) st count →
      tier1Matches p st e = true := by
    intro h
    simp only [pass1_matches] at h
    rcases selectLoop_mem _ _ _ h with h0 | ⟨a, ha⟩
    · exact absurd h0 (List.not_mem_nil e)
    · exact ha
  rw [pass2_matches] at he
  split at he
  · rcases selectLoop_mem _ _ _ he with hm1 | ⟨a, ha⟩
    · exact Or.inl (hm1case hm1)
    · simp only [Bool.and_eq_true] at ha
      exact Or.inr ha.1
  · exact Or.inl (hm1case he)

/-- Witness for the amended C5: the single selected exemplar in a concrete
run satisfies the Pass-1 condition. -/
theorem c5_amended_no_tier3_padding_witness :
    tier1Matches "Noun" "kn-decl-a" ("ಮರ".toList, "===Noun===kn-decl-a".toList) = true ∨
    tier2Matches ["Noun"] ("ಮರ".toList, "===Noun===kn-decl-a".toList) = true :=
  c5_amended_no_tier3_padding
    [("ಮರ".toList, "===Noun===kn-decl-a".toList)] ["Noun"] "ಕ".toList 4
    "Noun" "kn-decl-a" [("ಮರ".toList, "===Noun===kn-decl-a".toList)]
    (by decide) (by decide) (by decide)
    ("ಮರ".toList, "===Noun===kn-decl-a".toList) (by decide)

/-- C7 counterexample: with `count = 0` the `len(matched_entries) == count`
break test can never fire once an entry has been appended, so Pass 1
returns one entry — more than `count`.  The claim quantified over every
count is therefore false. -/
theorem c7_counterexample :
    get_few_shot_examples [("ಮರ".toList, "===Noun===kn-decl-a".toList)]
        ["Noun"] "ಕ".toList 0
      = some [("ಮರ".toList, "===Noun===kn-decl-a".toList)] ∧
    ¬ ([("ಮರ".toList, "===Noun===kn-decl-a".toList)] : List StorePair).length ≤ 0 := by
  decide

/-- C7 (amended): for every store whose words are distinct (a dict in the
source), POS list, non-empty target word and count ≥ 1, exemplar selection
returns at most `count` exemplars with no duplicate (word, entry) pair. -/
theorem c7_amended_bound_and_nodup (store : List StorePair)
    (pos_categories : List String) (target_word : Word) (count : Nat)
    (hw : target_word ≠ []) (hcount : 1 ≤ count)
    (hkeys : (store.map Prod.fst).Nodup) :
    ∃ res, get_few_shot_examples store pos_categories target_word count = some res ∧
      res.length ≤ count ∧ res.Nodup := by
  obtain ⟨st, hst⟩ := Option.isSome_iff_exists.mp
    (structural_target_isSome pos_categories.head? target_word hw)
  have hstore : store.Nodup := List.Nodup.of_map _ hkeys
  have hm1len : (pass1_matches store pos_categories.head? st count).length ≤ count := by
    cases hpp : pos_categories.head? with
    | none => simp [pass1_matches]
    | some p =>
      simp only [pass1_matches]
      exact selectLoop_length_le store []
        (by simpa using Nat.lt_of_lt_of_le Nat.zero_lt_one hcount)
  have hm1nodup : (pass1_matches store pos_categories.head? st count).Nodup := by
    cases hpp : pos_categories.head? with
    | none => simp [pass1_matches]
    | some p =>
      simp only [pass1_matches]
      exact selectLoop_nodup_of_disjoint store [] hstore List.nodup_nil (by simp)
  refine ⟨pass2_matches store pos_categories count
    (pass1_matches store pos_categories.head? st count), ?_, ?_, ?_⟩
  · simp only [get_few_shot_examples, hst]
  · rw [pass2_matches]
    split
    · next hlt => exact selectLoop_length_le store _ hlt
    · exact hm1len
  · rw [pass2_matches]
    split
    · exact selectLoop_nodup_of_guard
        (fun e a hpa => by
          simp only [Bool.and_eq_true, Bool.not_eq_true', decide_eq_false_iff_not] at hpa
          exact hpa.2)
        store _ hm1nodup
    · exact hm1nodup

/-- Witness for the amended C7 at a concrete store, word and count. -/
theorem c7_amended_bound_and_nodup_witness :
    ∃ res, get_few_shot_examples [("ಮರ".toList, "===Noun===kn-decl-a".toList)]
        ["Noun"] "ಕ".toList 4 = some res ∧
      res.length ≤ 4 ∧ res.Nodup :=
  c7_amended_bound_and_nodup [("ಮರ".toList, "===Noun===kn-decl-a".toList)]
    ["Noun"] "ಕ".toList 4 (by decide) (by decide) (by decide)

/-- C3 (code bug): for the native "-u" verb "ಬಿಡು" the classifier returns
"Verb: IRREGULAR_CHECK", but the Generate Wikitext handler compares the
joined instruction against the bare string "IRREGULAR_CHECK", so the
resolution branch (deterministic guess / explicit ambiguity instruction)
never fires and the generation request carries the raw sentinel, in both
model configurations — contradicting the dead resolution code's evident
intent. -/
theorem c3_sentinel_reaches_request (fast : Bool) :
    process_word fast [] "ಬಿಡು".toList ["Verb"] =
      .generate ⟨"Verb: IRREGULAR_CHECK", some []⟩ ∧
    "IRREGULAR_CHECK".toList <:+: "Verb: IRREGULAR_CHECK".toList ∧
    get_template_logic "ಬಿಡು".toList ["Verb"] ≠ "IRREGULAR_CHECK" := by
  cases fast <;> exact ⟨by decide, by decide, by decide⟩

/-- C4 counterexample: the classifier does not fail on the empty word — it
silently classifies it into the default declension-class A (the Python code
guards `word[-1]` with `if word else ""`), contradicting the claimed
`InvalidInput` failure. -/
theorem c4_counterexample :
    get_template_logic [] ["Noun"] = "Noun: \x7b\x7bkn-decl-a|\x7d\x7d" := by
  decide

/-- C4 (amended): for the empty word string supplied with any non-empty POS
list, the classifier does not fail and never indexes into the empty
sequence: it defaults the last character to the empty string and silently
produces the default directive for every requested POS in order —
declension-class A with the empty word as parameter for each Noun, the
IrregularCheck sentinel for each Verb, nothing for other POS — joined with
" AND ", falling back to the no-templates message when nothing was
produced. -/
theorem c4_amended_empty_word_default (pos_categories : List String)
    (h : pos_categories ≠ []) :
    get_template_logic [] pos_categories =
      (if pos_categories.filterMap (fun pos =>
          if pos = "Noun" then some "Noun: \x7b\x7bkn-decl-a|\x7d\x7d"
          else if pos = "Verb" then some "Verb: IRREGULAR_CHECK"
          else none) = [] then "No specific morphology templates required."
       else join_and (pos_categories.filterMap (fun pos =>
          if pos = "Noun" then some "Noun: \x7b\x7bkn-decl-a|\x7d\x7d"
          else if pos = "Verb" then some "Verb: IRREGULAR_CHECK"
          else none))) := by
  have hn : noun_instruction ([] : Word).getLast? [] = "Noun: \x7b\x7bkn-decl-a|\x7d\x7d" := by
    decide
  have hv : verb_instruction ([] : Word).getLast? [] = "Verb: IRREGULAR_CHECK" := by
    decide
  simp only [get_template_logic, hn, hv]
  cases hfm : pos_categories.filterMap (fun pos =>
      if pos = "Noun" then some "Noun: \x7b\x7bkn-decl-a|\x7d\x7d"
      else if pos = "Verb" then some "Verb: IRREGULAR_CHECK"
      else none) with
  | nil => simp
  | cons a l => simp

/-- Witness for the amended C4 at the multi-POS list ["Noun", "Verb"]: on
the empty word both default directives are produced and joined. -/
theorem c4_amended_empty_word_default_witness :
    get_template_logic [] ["Noun", "Verb"] =
      "Noun: \x7b\x7bkn-decl-a|\x7d\x7d AND Verb: IRREGULAR_CHECK" :=
  (c4_amended_empty_word_default ["Noun", "Verb"] (by decide)).trans (by decide)

/-- C6: a word present in the Knowledge Store short-circuits processing —
the stored entry is returned directly and the generation branch (which is
the only place classification, sentinel resolution and exemplar retrieval
happen) is never taken. -/
theorem c6_store_short_circuits_generation (fast : Bool) (store : List StorePair)
    (word : Word) (pos_categories : List String) (entry : Entry)
    (h : store_get store word = some entry) :
    process_word fast store word pos_categories = .fromStore entry := by
  unfold process_word
  rw [h]

/-- Witness for C6 at a concrete one-entry store. -/
theorem c6_store_short_circuits_generation_witness :
    process_word true [("ಮರ".toList, "entry".toList)] "ಮರ".toList ["Noun"]
      = .fromStore "entry".toList :=
  c6_store_short_circuits_generation true [("ಮರ".toList, "entry".toList)]
    "ಮರ".toList ["Noun"] "entry".toList (by decide)

theorem store_get_dict_set_ne (d : List StorePair) (w : Word) (e : Entry)
    (k : Word) (hk : k ≠ w) :
    store_get (dict_set d w e) k = store_get d k := by
  induction d with
  | nil =>
    simp only [dict_set, store_get]
    rw [if_neg (fun hc => hk hc.symm)]
  | cons hd rest ih =>
    obtain ⟨hk', hv⟩ := hd
    by_cases h : hk' = w
    · subst h
      rw [dict_set, if_pos rfl, store_get, store_get,
        if_neg (fun hc => hk hc.symm), if_neg (fun hc => hk hc.symm)]
    · rw [dict_set, if_neg h, store_get, store_get]
      by_cases hkk : hk' = k
      · rw [if_pos hkk, if_pos hkk]
      · rw [if_neg hkk, if_neg hkk]
        exact ih

theorem store_get_dict_set_self (d : List StorePair) (w : Word) (e : Entry) :
    store_get (dict_set d w e) w = some e := by
  induction d with
  | nil => simp [dict_set, store_get]
  | cons hd rest ih =>
    obtain ⟨hk', hv⟩ := hd
    by_cases h : hk' = w
    · rw [dict_set, if_pos h, store_get, if_pos h]
    · rw [dict_set, if_neg h, store_get, if_neg h]
      exact ih

/-- C9: saving an entry for `w` modifies only the binding of `w`: the save
re-loads the persisted mapping, replaces or inserts only the key `w`, and
rewrites the resource, so a subsequent load looks up every other key to its
previous entry and `w` to the new entry. -/
theorem c9_save_frame (file_state : Option (List StorePair)) (w : Word)
    (entry : Entry) (k : Word) (hk : k ≠ w) :
    store_get (load_ground_truth (save_to_ground_truth file_state w entry)) k
      = store_get (load_ground_truth file_state) k ∧
    store_get (load_ground_truth (save_to_ground_truth file_state w entry)) w
      = some entry :=
  ⟨store_get_dict_set_ne (load_ground_truth file_state) w entry k hk,
    store_get_dict_set_self (load_ground_truth file_state) w entry⟩

/-- Witness for C9 on a concrete persisted mapping: an unrelated key keeps
its binding across a save, and the saved key maps to the new entry. -/
theorem c9_save_frame_witness :
    store_get (load_ground_truth (save_to_ground_truth
        (some [("ಅ".toList, "x".toList)]) "ಬ".toList "y".toList)) "ಅ".toList
      = store_get (load_ground_truth (some [("ಅ".toList, "x".toList)])) "ಅ".toList ∧
    store_get (load_ground_truth (save_to_ground_truth
        (some [("ಅ".toList, "x".toList)]) "ಬ".toList "y".toList)) "ಬ".toList
      = some "y".toList :=
  c9_save_frame (some [("ಅ".toList, "x".toList)]) "ಬ".toList "y".toList
    "ಅ".toList (by decide)
